import Mathlib

/-!
Verification of the request-processing pipeline of the pandoc HTTP server
(`src/server.py`).  The whole program is the single handler `do_POST` built by
`create_server`; every definition below is a shallow embedding of a slice of
that handler, with the Python standard library pieces it leans on (dict
merging, `pathlib` resolution, `base64.b64decode`, the `urlopen` response
object) modelled explicitly.  Bytes are natural numbers below 256, paths are
lists of path components, and the network and the external pandoc process are
oracles passed in as functions.
-/

/-- A parsed JSON value, the result of `json.loads` on the request body
(`server.py` line 52).  Numbers are modelled as integers; no claim depends on
float payloads. -/
inductive JVal where
  | null
  | bool (b : Bool)
  | num (n : Int)
  | str (s : String)
  | arr (xs : List JVal)
  | obj (kvs : List (String × JVal))

/-- Key lookup in a JSON object, first match wins.  Python `dict` keys are
unique, so association lists with distinct keys model payload objects
faithfully. -/
def jLookup (key : String) : List (String × JVal) → Option JVal
  | [] => none
  | (k, v) :: rest => if k = key then some v else jLookup key rest

/-- Python `key in d` for a dict `d`. -/
def containsKey (key : String) (m : List (String × JVal)) : Bool :=
  m.any (fun p => p.1 == key)

/-- The merged mapping `{ **files, **extra_files }` of `server.py` line 98:
keys of `files` first in their order (with the `extra_files` value whenever the
key also occurs there, since the later unpacking wins), then the keys only in
`extra_files`, in their order. -/
def dictMerge (files extra : List (String × JVal)) : List (String × JVal) :=
  files.map (fun p =>
    match jLookup p.1 extra with
    | some v => (p.1, v)
    | none => p)
  ++ extra.filter (fun p => ! containsKey p.1 files)

/-- Splitting a file name on the separator, as `pathlib` does when joining
`files_path / file_name` (`server.py` line 99). -/
def splitSlashAux (cur : List Char) : List Char → List (List Char)
  | [] => [cur.reverse]
  | c :: rest =>
    if c = '/' then cur.reverse :: splitSlashAux [] rest
    else splitSlashAux (c :: cur) rest

/-- The components of a declared file name. -/
def nameComponents (s : String) : List String :=
  (splitSlashAux [] s.data).map (fun cs => String.mk cs)

/-- Whether a declared name is absolute; `pathlib` join discards the base in
that case. -/
def isAbsoluteName (s : String) : Bool :=
  match s.data with
  | '/' :: _ => true
  | _ => false

/-- Lexical normalisation performed by `Path.resolve()` (`server.py` line 99)
starting from an already-resolved base: empty and `.` components vanish and
`..` removes the last component (at the root it stays at the root).  The fresh
temporary directory holds no symlinks, so the lexical model is exact there. -/
def normalizeInto (acc : List String) : List String → List String
  | [] => acc
  | c :: rest =>
    if c = "" ∨ c = "." then normalizeInto acc rest
    else if c = ".." then normalizeInto acc.dropLast rest
    else normalizeInto (acc ++ [c]) rest

/-- `(files_path / file_name).resolve()` of `server.py` line 99, with
`files_path` given as the (already resolved) component list `filesDir`. -/
def resolvedTarget (filesDir : List String) (name : String) : List String :=
  if isAbsoluteName name then normalizeInto [] (nameComponents name)
  else normalizeInto filesDir (nameComponents name)

/-- The base64 alphabet used by `base64.b64decode` (`server.py` line 124). -/
def b64chars : List Char :=
  ['A', 'B', 'C', 'D', 'E', 'F', 'G', 'H', 'I', 'J', 'K', 'L', 'M',
   'N', 'O', 'P', 'Q', 'R', 'S', 'T', 'U', 'V', 'W', 'X', 'Y', 'Z',
   'a', 'b', 'c', 'd', 'e', 'f', 'g', 'h', 'i', 'j', 'k', 'l', 'm',
   'n', 'o', 'p', 'q', 'r', 's', 't', 'u', 'v', 'w', 'x', 'y', 'z',
   '0', '1', '2', '3', '4', '5', '6', '7', '8', '9', '+', '/']

/-- Value of the base64 digit at an index (out of range yields the first
digit; never reached for 6-bit values). -/
def encCharAux : Nat → List Char → Char
  | _, [] => 'A'
  | 0, c :: _ => c
  | n + 1, _ :: rest => encCharAux n rest

/-- The base64 digit for a 6-bit value. -/
def encChar (n : Nat) : Char := encCharAux n b64chars

/-- Index of a character in the base64 alphabet, if any. -/
def decCharAux (c : Char) (i : Nat) : List Char → Option Nat
  | [] => none
  | d :: rest => if d = c then some i else decCharAux c (i + 1) rest

/-- The 6-bit value of a base64 digit, `none` outside the alphabet. -/
def decChar (c : Char) : Option Nat := decCharAux c 0 b64chars

/-- Standard base64 encoding of a byte string, the construction the spec's
round-trip property quantifies over (the server itself only decodes). -/
def b64encode : List Nat → List Char
  | [] => []
  | [a] =>
    [encChar (a / 4), encChar (a % 4 * 16), '=', '=']
  | [a, b] =>
    [encChar (a / 4), encChar (a % 4 * 16 + b / 16), encChar (b % 16 * 4), '=']
  | a :: b :: c :: rest =>
    encChar (a / 4) :: encChar (a % 4 * 16 + b / 16) ::
    encChar (b % 16 * 4 + c / 64) :: encChar (c % 64) :: b64encode rest

/-- `base64.b64decode` (`server.py` line 124) on standard-alphabet input:
groups of four digits decode to three bytes, with `=` padding allowed only in
the final group; `none` models the `binascii.Error` the stdlib raises on
malformed padding.  (The stdlib additionally discards characters outside the
alphabet before decoding; no claim depends on that leniency.) -/
def b64decode : List Char → Option (List Nat)
  | [] => some []
  | c1 :: c2 :: c3 :: c4 :: rest =>
    match decChar c1 with
    | none => none
    | some d1 =>
      match decChar c2 with
      | none => none
      | some d2 =>
        if c3 = '=' then
          if c4 = '=' ∧ rest = [] then some [d1 * 4 + d2 / 16] else none
        else
          match decChar c3 with
          | none => none
          | some d3 =>
            if c4 = '=' then
              if rest = [] then
                some [d1 * 4 + d2 / 16, d2 % 16 * 16 + d3 / 4]
              else none
            else
              match decChar c4 with
              | none => none
              | some d4 =>
                match b64decode rest with
                | none => none
                | some bs =>
                  some ((d1 * 4 + d2 / 16) :: (d2 % 16 * 16 + d3 / 4) ::
                        ((d3 % 4 * 64 + d4) :: bs))
  | _ => none

/-- Python `s.startswith(pre)` (`server.py` lines 112 and 116). -/
def pyStartswith (s pre : String) : Bool :=
  pre.data.isPrefixOf s.data

/-- Python substring containment `sub in l` for strings, as character
lists. -/
def hasInfix (l sub : List Char) : Bool :=
  if sub.isPrefixOf l then true
  else
    match l with
    | [] => false
    | _ :: rest => hasInfix rest sub

/-- Outcome of processing one entry of the merged file mapping inside the
loop of `server.py` lines 98 to 124.  `rejectPath` and `rejectNull` are the
two early 400 returns; `fault` is an uncaught Python exception escaping the
handler; `written` records the resolved target path and the bytes written. -/
inductive EntryStep where
  | rejectPath
  | rejectNull
  | fault
  | written (target : List String) (bytes : List Nat)
deriving DecidableEq

/-- The content dispatch of `server.py` lines 112 to 124, after the path and
null checks.  `fetch` is the network oracle behind `urlopen` for data URIs
(`none` means `urlopen` raised).  The `http:`/`https:` branch (line 119) calls
`response.iter_content(chunk_size=4 * 1024 * 1024)`, but the object returned
by `urllib.request.urlopen` is an `http.client.HTTPResponse`, which has no
`iter_content` attribute (that is an API of the third-party `requests`
library), so that branch always raises `AttributeError`: it is modelled as a
fault.  A non-string descriptor has no `startswith` attribute, also a fault. -/
def dispatchContent (target : List String) (fetch : String → Option (List Nat)) :
    JVal → EntryStep
  | .str s =>
    if pyStartswith s "data:" then
      match fetch s with
      | some bs => .written target bs
      | none => .fault
    else if pyStartswith s "http:" ∨ pyStartswith s "https:" then
      .fault
    else
      match b64decode s.data with
      | some bs => .written target bs
      | none => .fault
  | _ => .fault

/-- Python `x is None` for a JSON value (`server.py` line 106). -/
def isNullJ : JVal → Bool
  | .null => true
  | _ => false

/-- One iteration of the materialization loop (`server.py` lines 98 to 124):
resolve the target, reject with 400 unless it stays inside the sandbox's
`files` directory (`is_relative_to`, line 100), reject with 400 on a null
descriptor (line 106), then dispatch on the content prefix. -/
def processEntry (filesDir : List String) (fetch : String → Option (List Nat))
    (name : String) (content : JVal) : EntryStep :=
  if filesDir.isPrefixOf (resolvedTarget filesDir name) then
    if isNullJ content then .rejectNull
    else dispatchContent (resolvedTarget filesDir name) fetch content
  else .rejectPath

/-- How a full run of the materialization loop ends: an early 400 return, an
uncaught exception, or completion. -/
inductive MatOutcome where
  | rejected
  | faulted
  | finished
deriving DecidableEq

/-- A run of the materialization loop: the writes that reached the disk, in
order, and how the loop ended. -/
structure MatRun where
  writes : List (List String × List Nat)
  outcome : MatOutcome
deriving DecidableEq

/-- The materialization loop over the merged mapping (`server.py` lines 98 to
124).  Entries are processed in iteration order; the first rejection or fault
stops the loop, and writes made before it stay recorded. -/
def materialize (filesDir : List String) (fetch : String → Option (List Nat)) :
    List (String × JVal) → MatRun
  | [] => ⟨[], .finished⟩
  | (name, content) :: rest =>
    match processEntry filesDir fetch name content with
    | .rejectPath => ⟨[], .rejected⟩
    | .rejectNull => ⟨[], .rejected⟩
    | .fault => ⟨[], .faulted⟩
    | .written p bs =>
      let r := materialize filesDir fetch rest
      ⟨(p, bs) :: r.writes, r.outcome⟩

/-- Outcome of the payload validation of `server.py` lines 64 to 90:
a 400 rejection, an uncaught exception, or the validated `files`,
`extra_files` (defaulted to empty) and `args` values. -/
inductive VOutcome where
  | reject400
  | fault
  | proceed (files extra : List (String × JVal)) (args : List JVal)

/-- The `args` lookup of `server.py` lines 81 to 90: absent or non-list
values are rejected with 400; list elements are not inspected. -/
def checkArgs (kvs : List (String × JVal)) (files extra : List (String × JVal)) :
    VOutcome :=
  match jLookup "args" kvs with
  | some (.arr args) => .proceed files extra args
  | some _ => .reject400
  | none => .reject400

/-- The payload validation of `server.py` lines 64 to 90.  For a JSON object
the three fields are checked in order; `files` must be an object, a present
`extra_files` must be an object (absent defaults to empty), `args` must be a
list.  A non-object top level follows Python semantics of
`"files" not in payload`: for a list, membership of the string among the
elements (a hit then faults on `list.pop("files")`); for a string, substring
containment (a hit then faults on the missing `pop` attribute); for null,
numbers and booleans, `in` itself raises `TypeError`. -/
def validatePayload : JVal → VOutcome
  | .obj kvs =>
    match jLookup "files" kvs with
    | none => .reject400
    | some (.obj files) =>
      match jLookup "extra_files" kvs with
      | none => checkArgs kvs files []
      | some (.obj extra) => checkArgs kvs files extra
      | some _ => .reject400
    | some _ => .reject400
  | .arr xs =>
    if xs.any (fun v =>
        match v with
        | JVal.str s => s == "files"
        | _ => false)
    then .fault else .reject400
  | .str s =>
    if hasInfix s.data "files".data then .fault else .reject400
  | _ => .fault

/-- Conversion of the validated `args` list to strings, as `Popen` demands of
its argument vector (`server.py` line 126): a non-string element makes `Popen`
raise `TypeError`, modelled as `none`. -/
def asStrings : List JVal → Option (List String)
  | [] => some []
  | .str s :: rest => (asStrings rest).map (fun l => s :: l)
  | _ => none

/-- Whether a JSON value is an object (Python `isinstance(x, dict)`). -/
def isObjJ : JVal → Bool
  | .obj _ => true
  | _ => false

/-- Whether a JSON value is an array (Python `isinstance(x, list)`). -/
def isArrJ : JVal → Bool
  | .arr _ => true
  | _ => false

/-- The `files` requirement the code enforces: present and an object. -/
def filesOk (kvs : List (String × JVal)) : Bool :=
  match jLookup "files" kvs with
  | some v => isObjJ v
  | none => false

/-- The `extra_files` requirement the code enforces: if present, an object. -/
def extraOk (kvs : List (String × JVal)) : Bool :=
  match jLookup "extra_files" kvs with
  | some v => isObjJ v
  | none => true

/-- The `args` requirement the code enforces: present and an array; element
types are never inspected. -/
def argsOk (kvs : List (String × JVal)) : Bool :=
  match jLookup "args" kvs with
  | some v => isArrJ v
  | none => false

/-- Whether every element of a JSON array is a string: the condition the
claim states for `args` and the code does not check. -/
def allStringsJ (xs : List JVal) : Bool :=
  xs.all fun v =>
    match v with
    | JVal.str _ => true
    | _ => false

/-- The subprocess invocation of `server.py` lines 126 to 137: the full
argument vector handed to `Popen` and the working directory `cwd`. -/
structure Invocation where
  argv : List String
  cwd : List String
deriving DecidableEq

/-- What `communicate()` returns together with the process's exit status
(`server.py` lines 138 to 140): both streams are fully captured. -/
structure ToolResult where
  exitCode : Int
  stdout : List Nat
  stderr : List Nat
deriving DecidableEq

/-- The argument vector built at `server.py` lines 127 to 133:
`["pandoc", *args, *files.keys(), "-o", "-"]`, with `cwd=str(files_path)`
(line 134). -/
def mkInvocation (args fileKeys filesDir : List String) : Invocation :=
  ⟨"pandoc" :: (args ++ fileKeys ++ ["-o", "-"]), filesDir⟩

/-- An HTTP response as the handler emits it: status code, the headers the
handler sets explicitly via `send_header`, and the body bytes written to
`wfile`. -/
structure HttpResponse where
  status : Nat
  headers : List (String × String)
  body : List Nat
deriving DecidableEq

/-- The response written after the tool run (`server.py` lines 140 to 151):
non-zero exit status gives 500 with the captured stderr as body; zero exit
status gives 200 with the two headers and the captured stdout as body. -/
def respondToTool (r : ToolResult) : HttpResponse :=
  if r.exitCode ≠ 0 then ⟨500, [], r.stderr⟩
  else
    ⟨200,
     [("Content-Type", "application/octet-stream"),
      ("Content-Length", toString r.stdout.length)],
     r.stdout⟩

/-- How one request ends: a single well-formed HTTP response, or an uncaught
exception that aborts the connection without a response. -/
inductive Outcome where
  | response (r : HttpResponse)
  | crashed
deriving DecidableEq

/-- The observable side effects of one request: how many sandbox directories
were created (`TemporaryDirectory()`, `server.py` line 92) and destroyed (its
scope exit, which runs on every path out of the `with` block, exceptions
included), the disk writes performed, and the tool invocation with its
captured result, if one happened. -/
structure Trace where
  created : Nat
  destroyed : Nat
  writes : List (List String × List Nat)
  invocation : Option (Invocation × ToolResult)
deriving DecidableEq

/-- The trace of a request that never reaches `TemporaryDirectory()`. -/
def emptyTrace : Trace := ⟨0, 0, [], none⟩

/-- The sandboxed part of the handler (`server.py` lines 92 to 151): create
the sandbox, materialize the merged mapping into its `files` subdirectory,
then run the tool on the `files` keys and respond.  `root` is the resolved
fresh temporary directory; the sandbox is destroyed on every path out,
faults included, because `TemporaryDirectory` is a context manager. -/
def runJob (root : List String) (fetch : String → Option (List Nat))
    (tool : Invocation → ToolResult)
    (files extra : List (String × JVal)) (args : List JVal) : Outcome × Trace :=
  let filesDir := root ++ ["files"]
  let run := materialize filesDir fetch (dictMerge files extra)
  match run.outcome with
  | .rejected => (.response ⟨400, [], []⟩, ⟨1, 1, run.writes, none⟩)
  | .faulted => (.crashed, ⟨1, 1, run.writes, none⟩)
  | .finished =>
    match asStrings args with
    | none => (.crashed, ⟨1, 1, run.writes, none⟩)
    | some sargs =>
      let inv := mkInvocation sargs (files.map Prod.fst) filesDir
      let r := tool inv
      (.response (respondToTool r), ⟨1, 1, run.writes, some (inv, r)⟩)

/-- Server configuration captured by the handler closure: the optional bearer
token (`server.py` line 19). -/
structure Config where
  token : Option String

/-- The result of reading and JSON-parsing the request body (`server.py`
lines 48 to 62), supplied as an oracle: `malformed` is a `JSONDecodeError`
(400), `parseFault` any other parse-time exception (500), `value` a parsed
payload. -/
inductive ParsedBody where
  | malformed
  | parseFault
  | value (v : JVal)

/-- An incoming POST request as the handler observes it. -/
structure Request where
  path : String
  authorization : Option String
  contentType : Option String
  body : ParsedBody

/-- Result of the authentication gate of `server.py` lines 28 to 39. -/
inductive AuthCheck where
  | reject401
  | reject403
  | pass
deriving DecidableEq

/-- The authentication gate (`server.py` lines 28 to 39): skipped entirely
when no token is configured; otherwise a missing `Authorization` header is
401 and a value different from the literal `Bearer <token>` is 403. -/
def authGate (token : Option String) (authHeader : Option String) : AuthCheck :=
  match token with
  | none => .pass
  | some t =>
    match authHeader with
    | none => .reject401
    | some v => if v = "Bearer " ++ t then .pass else .reject403

/-- The whole `do_POST` handler (`server.py` lines 21 to 151): path check,
authentication gate, content-type check, body parse, payload validation, then
the sandboxed job. -/
def handleRequest (cfg : Config) (req : Request) (root : List String)
    (fetch : String → Option (List Nat)) (tool : Invocation → ToolResult) :
    Outcome × Trace :=
  if req.path = "/" then
    match authGate cfg.token req.authorization with
    | .reject401 => (.response ⟨401, [], []⟩, emptyTrace)
    | .reject403 => (.response ⟨403, [], []⟩, emptyTrace)
    | .pass =>
      if req.contentType = some "application/json" then
        match req.body with
        | .malformed => (.response ⟨400, [], []⟩, emptyTrace)
        | .parseFault => (.response ⟨500, [], []⟩, emptyTrace)
        | .value v =>
          match validatePayload v with
          | .reject400 => (.response ⟨400, [], []⟩, emptyTrace)
          | .fault => (.crashed, emptyTrace)
          | .proceed files extra args => runJob root fetch tool files extra args
      else (.response ⟨400, [], []⟩, emptyTrace)
  else (.response ⟨404, [], []⟩, emptyTrace)

/-- C2: for every completed tool invocation the handler's response is exactly
one of two shapes: exit status zero gives status 200 with the
octet-stream content type, a Content-Length equal to the captured stdout
length and the raw stdout bytes as body; a non-zero exit status gives status
500 with the captured stderr bytes verbatim as body; and whenever the job
records an invocation, the request's response is exactly the one built from
the captured tool result. -/
theorem c2_response_shape (r : ToolResult) :
    (r.exitCode = 0 →
      respondToTool r =
        ⟨200,
         [("Content-Type", "application/octet-stream"),
          ("Content-Length", toString r.stdout.length)],
         r.stdout⟩)
    ∧ (r.exitCode ≠ 0 → respondToTool r = ⟨500, [], r.stderr⟩)
    ∧ (∀ root fetch tool files extra args inv tr,
        (runJob root fetch tool files extra args).2.invocation = some (inv, tr) →
        (runJob root fetch tool files extra args).1 =
          Outcome.response (respondToTool tr)) := by
  refine ⟨fun h => by simp [respondToTool, h], fun h => by simp [respondToTool, h], ?_⟩
  intro root fetch tool files extra args inv tr h
  unfold runJob at h ⊢
  rcases hm : (materialize (root ++ ["files"]) fetch (dictMerge files extra)).outcome with
    _ | _ | _ <;> simp only [hm] at h ⊢
  · cases h
  · cases h
  · rcases ha : asStrings args with _ | sargs <;> simp only [ha] at h ⊢
    · cases h
    · cases h
      rfl

/-- Closed instance of `c2_response_shape` at concrete tool results. -/
theorem c2_response_shape_witness :
    respondToTool ⟨0, [104, 105], [9]⟩ =
      ⟨200,
       [("Content-Type", "application/octet-stream"),
        ("Content-Length", toString ([104, 105] : List Nat).length)],
       [104, 105]⟩
    ∧ respondToTool ⟨7, [104, 105], [9]⟩ = ⟨500, [], [9]⟩ :=
  ⟨(c2_response_shape ⟨0, [104, 105], [9]⟩).1 rfl,
   (c2_response_shape ⟨7, [104, 105], [9]⟩).2.1 (by decide)⟩

/-- C3: with a configured token, a request without an `Authorization` header
is rejected 401, one whose value differs from the literal `Bearer <token>` is
rejected 403, and the exact value passes the gate; with no configured token
the gate is skipped and every request passes; and the handler maps the two
rejections to the 401 and 403 responses. -/
theorem c3_auth_gate (token authHeader : Option String) :
    (token = none → authGate token authHeader = AuthCheck.pass)
    ∧ (∀ t, token = some t →
        (authHeader = none → authGate token authHeader = AuthCheck.reject401)
        ∧ (∀ v, authHeader = some v → v ≠ "Bearer " ++ t →
            authGate token authHeader = AuthCheck.reject403)
        ∧ (authHeader = some ("Bearer " ++ t) →
            authGate token authHeader = AuthCheck.pass))
    ∧ (∀ cfg req root fetch tool, req.path = "/" →
        (authGate cfg.token req.authorization = AuthCheck.reject401 →
          (handleRequest cfg req root fetch tool).1 = Outcome.response ⟨401, [], []⟩)
        ∧ (authGate cfg.token req.authorization = AuthCheck.reject403 →
          (handleRequest cfg req root fetch tool).1 =
            Outcome.response ⟨403, [], []⟩)) := by
  refine ⟨fun h => by simp [authGate, h], ?_, ?_⟩
  · intro t ht
    subst ht
    refine ⟨fun h => by simp [authGate, h], fun v hv hne => ?_, fun h => by simp [authGate, h]⟩
    subst hv
    simp [authGate, hne]
  · intro cfg req root fetch tool hpath
    constructor <;> intro hg <;> simp [handleRequest, hpath, hg]

/-- Closed instance of `c3_auth_gate`: the three gate outcomes at a concrete
token. -/
theorem c3_auth_gate_witness :
    authGate (some "s3cret") none = AuthCheck.reject401
    ∧ authGate (some "s3cret") (some "Bearer nope") = AuthCheck.reject403
    ∧ authGate (some "s3cret") (some ("Bearer " ++ "s3cret")) = AuthCheck.pass
    ∧ authGate none none = AuthCheck.pass :=
  ⟨((c3_auth_gate (some "s3cret") none).2.1 "s3cret" rfl).1 rfl,
   ((c3_auth_gate (some "s3cret") (some "Bearer nope")).2.1 "s3cret" rfl).2.1
     "Bearer nope" rfl (by decide),
   ((c3_auth_gate (some "s3cret") (some ("Bearer " ++ "s3cret"))).2.1 "s3cret" rfl).2.2 rfl,
   (c3_auth_gate none none).1 rfl⟩

/-- C7: the remote-URL branch of the materializer (`server.py` lines 116 to
120) never writes the fetched bytes: `response.iter_content` does not exist
on the `urlopen` response object, so every `http:` or `https:` descriptor
raises `AttributeError` and nothing is written, even when the network oracle
would deliver bytes. -/
theorem c7_url_fetch_bug :
    processEntry ["tmp", "files"] (fun _ => some [1, 2, 3]) "doc.md"
      (JVal.str "http://example.com/doc.md") = EntryStep.fault
    ∧ processEntry ["tmp", "files"] (fun _ => some [1, 2, 3]) "doc.md"
      (JVal.str "https://example.com/doc.md") = EntryStep.fault
    ∧ (materialize ["tmp", "files"] (fun _ => some [1, 2, 3])
        [("doc.md", JVal.str "http://example.com/doc.md")]).writes = [] := by
  refine ⟨by decide, by decide, by decide⟩

/-- A `written` step out of the dispatch targets exactly the path it was
given. -/
theorem dispatchContent_target (t : List String) (fetch : String → Option (List Nat))
    (c : JVal) (p : List String) (bs : List Nat)
    (h : dispatchContent t fetch c = EntryStep.written p bs) : p = t := by
  cases c <;> simp only [dispatchContent] at h
  case str s =>
    by_cases h1 : pyStartswith s "data:" = true
    · rw [if_pos h1] at h
      rcases hf : fetch s with _ | bs0 <;> rw [hf] at h
      · exact EntryStep.noConfusion h
      · have h' : EntryStep.written t bs0 = EntryStep.written p bs := h
        injection h' with e1 e2
        exact e1.symm
    · rw [if_neg h1] at h
      by_cases h2 : pyStartswith s "http:" = true ∨ pyStartswith s "https:" = true
      · rw [if_pos h2] at h
        exact EntryStep.noConfusion h
      · rw [if_neg h2] at h
        rcases hd : b64decode s.data with _ | bs0 <;> rw [hd] at h
        · exact EntryStep.noConfusion h
        · have h' : EntryStep.written t bs0 = EntryStep.written p bs := h
          injection h' with e1 e2
          exact e1.symm
  all_goals exact EntryStep.noConfusion h

/-- An entry whose resolved target escapes the sandbox's `files` directory is
rejected at the path check, whatever its content. -/
theorem processEntry_escape (fd : List String) (fetch : String → Option (List Nat))
    (name : String) (c : JVal)
    (h : fd.isPrefixOf (resolvedTarget fd name) = false) :
    processEntry fd fetch name c = EntryStep.rejectPath := by
  unfold processEntry
  simp [h]

/-- An entry only reaches the disk at its resolved target, and only when that
target passed the containment check. -/
theorem processEntry_written (fd : List String) (fetch : String → Option (List Nat))
    (name : String) (c : JVal) (p : List String) (bs : List Nat)
    (h : processEntry fd fetch name c = EntryStep.written p bs) :
    p = resolvedTarget fd name ∧ fd.isPrefixOf p = true := by
  unfold processEntry at h
  by_cases hg : fd.isPrefixOf (resolvedTarget fd name) = true
  · rw [if_pos hg] at h
    by_cases hn : isNullJ c = true
    · rw [if_pos hn] at h
      exact EntryStep.noConfusion h
    · rw [if_neg hn] at h
      have hp := dispatchContent_target _ _ _ _ _ h
      subst hp
      exact ⟨rfl, hg⟩
  · rw [if_neg hg] at h
    exact EntryStep.noConfusion h

/-- Every write that the materialization loop performs stays inside the
sandbox's `files` directory. -/
theorem materialize_writes_safe (fd : List String) (fetch : String → Option (List Nat)) :
    ∀ entries, ∀ w ∈ (materialize fd fetch entries).writes,
      fd.isPrefixOf w.1 = true := by
  intro entries
  induction entries with
  | nil => intro w hw; simp [materialize] at hw
  | cons e rest ih =>
    intro w hw
    obtain ⟨name, content⟩ := e
    unfold materialize at hw
    rcases hp : processEntry fd fetch name content with _ | _ | _ | ⟨p, bs⟩ <;>
      rw [hp] at hw
    · exact absurd hw (by simp)
    · exact absurd hw (by simp)
    · exact absurd hw (by simp)
    · have hw' : w ∈ (p, bs) :: (materialize fd fetch rest).writes := hw
      rcases List.mem_cons.mp hw' with h | h
      · subst h
        exact (processEntry_written fd fetch name content p bs hp).2
      · exact ih w h

/-- If any entry of the list has an escaping resolved target, the loop never
finishes: it stops at a rejection or at an earlier fault. -/
theorem materialize_escape_stops (fd : List String) (fetch : String → Option (List Nat)) :
    ∀ entries name content, (name, content) ∈ entries →
      fd.isPrefixOf (resolvedTarget fd name) = false →
      (materialize fd fetch entries).outcome ≠ MatOutcome.finished := by
  intro entries
  induction entries with
  | nil => intro name c h; simp at h
  | cons e rest ih =>
    intro name c hmem hesc
    obtain ⟨n0, c0⟩ := e
    unfold materialize
    rcases hp : processEntry fd fetch n0 c0 with _ | _ | _ | ⟨p, bs⟩
    · exact fun hcon => MatOutcome.noConfusion hcon
    · exact fun hcon => MatOutcome.noConfusion hcon
    · exact fun hcon => MatOutcome.noConfusion hcon
    · show (materialize fd fetch rest).outcome ≠ MatOutcome.finished
      rcases List.mem_cons.mp hmem with h | h
      · injection h with h1 h2
        subst h1
        rw [processEntry_escape fd fetch name c0 hesc] at hp
        exact EntryStep.noConfusion hp
      · exact ih name c h hesc

/-- The sandboxed job always creates and destroys exactly one sandbox, and
its disk writes are those of the materialization loop over the merged
mapping. -/
theorem runJob_trace (root : List String) (fetch : String → Option (List Nat))
    (tool : Invocation → ToolResult) (files extra : List (String × JVal))
    (args : List JVal) :
    (runJob root fetch tool files extra args).2.created = 1
    ∧ (runJob root fetch tool files extra args).2.destroyed = 1
    ∧ (runJob root fetch tool files extra args).2.writes =
        (materialize (root ++ ["files"]) fetch (dictMerge files extra)).writes := by
  simp only [runJob]
  rcases hm : (materialize (root ++ ["files"]) fetch (dictMerge files extra)).outcome with
    _ | _ | _
  · exact ⟨rfl, rfl, rfl⟩
  · exact ⟨rfl, rfl, rfl⟩
  · rcases ha : asStrings args with _ | sargs
    · exact ⟨rfl, rfl, rfl⟩
    · exact ⟨rfl, rfl, rfl⟩

/-- C1: every byte written by the materialization loop lands at a path that
has the sandbox's `files` directory as a prefix; an entry whose canonicalized
target escapes that directory is rejected at the path check whatever its
content; a mapping containing such an entry can never finish materialization;
and when the loop stops on a rejection the job's response is exactly the
empty 400. -/
theorem c1_path_traversal :
    ∀ (fd root : List String) (fetch : String → Option (List Nat)),
      (∀ entries, ∀ w ∈ (materialize fd fetch entries).writes,
          fd.isPrefixOf w.1 = true)
      ∧ (∀ name content, fd.isPrefixOf (resolvedTarget fd name) = false →
          processEntry fd fetch name content = EntryStep.rejectPath)
      ∧ (∀ entries name content, (name, content) ∈ entries →
          fd.isPrefixOf (resolvedTarget fd name) = false →
          (materialize fd fetch entries).outcome ≠ MatOutcome.finished)
      ∧ (∀ tool files extra args,
          (materialize (root ++ ["files"]) fetch (dictMerge files extra)).outcome
            = MatOutcome.rejected →
          (runJob root fetch tool files extra args).1 =
            Outcome.response ⟨400, [], []⟩) := by
  intro fd root fetch
  refine ⟨materialize_writes_safe fd fetch,
    fun name content h => processEntry_escape fd fetch name content h,
    materialize_escape_stops fd fetch, ?_⟩
  intro tool files extra args h
  simp only [runJob]
  rw [h]

/-- Closed instance of `c1_path_traversal`: a `../` name and an absolute name
are both rejected at the path check. -/
theorem c1_path_traversal_witness :
    processEntry ["tmp", "sbx", "files"] (fun _ => none) "../escape.md"
      (JVal.str "aGk=") = EntryStep.rejectPath
    ∧ processEntry ["tmp", "sbx", "files"] (fun _ => none) "/etc/passwd"
      (JVal.str "aGk=") = EntryStep.rejectPath :=
  ⟨(c1_path_traversal ["tmp", "sbx", "files"] [] (fun _ => none)).2.1 "../escape.md"
     (JVal.str "aGk=") (by decide),
   (c1_path_traversal ["tmp", "sbx", "files"] [] (fun _ => none)).2.1 "/etc/passwd"
     (JVal.str "aGk=") (by decide)⟩

/-- C8 (amended): per request at most one sandbox is created and the number
destroyed always equals the number created (the temporary directory's scope
runs its cleanup on every exit path); every request that passes the path,
authentication, content-type, parse and validation gates creates exactly one;
and all of the request's writes stay inside the sandbox's `files`
directory.  Requests rejected before validation create no sandbox. -/
theorem c8_sandbox_amended (cfg : Config) (req : Request) (root : List String)
    (fetch : String → Option (List Nat)) (tool : Invocation → ToolResult) :
    (handleRequest cfg req root fetch tool).2.destroyed
      = (handleRequest cfg req root fetch tool).2.created
    ∧ (handleRequest cfg req root fetch tool).2.created ≤ 1
    ∧ (∀ v files extra args, req.path = "/" →
        authGate cfg.token req.authorization = AuthCheck.pass →
        req.contentType = some "application/json" →
        req.body = ParsedBody.value v →
        validatePayload v = VOutcome.proceed files extra args →
        (handleRequest cfg req root fetch tool).2.created = 1)
    ∧ (∀ w ∈ (handleRequest cfg req root fetch tool).2.writes,
        (root ++ ["files"]).isPrefixOf w.1 = true) := by
  refine ⟨?_, ?_, ?_, ?_⟩
  · by_cases hp : req.path = "/"
    · simp only [handleRequest, if_pos hp]
      rcases hg : authGate cfg.token req.authorization with _ | _ | _ <;> simp only [hg]
      · rfl
      · rfl
      · by_cases hct : req.contentType = some "application/json"
        · simp only [if_pos hct]
          rcases hb : req.body with _ | _ | v <;> simp only [hb]
          · rfl
          · rfl
          · rcases hv : validatePayload v with _ | _ | ⟨f, e, a⟩ <;> simp only [hv]
            · rfl
            · rfl
            · exact ((runJob_trace root fetch tool f e a).2.1).trans
                ((runJob_trace root fetch tool f e a).1).symm
        · simp only [if_neg hct]
          rfl
    · simp only [handleRequest, if_neg hp]
      rfl
  · by_cases hp : req.path = "/"
    · simp only [handleRequest, if_pos hp]
      rcases hg : authGate cfg.token req.authorization with _ | _ | _ <;> simp only [hg]
      · exact Nat.zero_le 1
      · exact Nat.zero_le 1
      · by_cases hct : req.contentType = some "application/json"
        · simp only [if_pos hct]
          rcases hb : req.body with _ | _ | v <;> simp only [hb]
          · exact Nat.zero_le 1
          · exact Nat.zero_le 1
          · rcases hv : validatePayload v with _ | _ | ⟨f, e, a⟩ <;> simp only [hv]
            · exact Nat.zero_le 1
            · exact Nat.zero_le 1
            · exact Nat.le_of_eq (runJob_trace root fetch tool f e a).1
        · simp only [if_neg hct]
          exact Nat.zero_le 1
    · simp only [handleRequest, if_neg hp]
      exact Nat.zero_le 1
  · intro v files extra args h1 h2 h3 h4 h5
    simp only [handleRequest, if_pos h1, h2, if_pos h3, h4, h5]
    exact (runJob_trace root fetch tool files extra args).1
  · by_cases hp : req.path = "/"
    · simp only [handleRequest, if_pos hp]
      rcases hg : authGate cfg.token req.authorization with _ | _ | _ <;> simp only [hg]
      · exact fun w hw => absurd hw (List.not_mem_nil w)
      · exact fun w hw => absurd hw (List.not_mem_nil w)
      · by_cases hct : req.contentType = some "application/json"
        · simp only [if_pos hct]
          rcases hb : req.body with _ | _ | v <;> simp only [hb]
          · exact fun w hw => absurd hw (List.not_mem_nil w)
          · exact fun w hw => absurd hw (List.not_mem_nil w)
          · rcases hv : validatePayload v with _ | _ | ⟨f, e, a⟩ <;> simp only [hv]
            · exact fun w hw => absurd hw (List.not_mem_nil w)
            · exact fun w hw => absurd hw (List.not_mem_nil w)
            · intro w hw
              rw [(runJob_trace root fetch tool f e a).2.2] at hw
              exact materialize_writes_safe _ fetch _ w hw
        · simp only [if_neg hct]
          exact fun w hw => absurd hw (List.not_mem_nil w)
    · simp only [handleRequest, if_neg hp]
      exact fun w hw => absurd hw (List.not_mem_nil w)

/-- Closed instance of `c8_sandbox_amended`: a fully valid request creates
exactly one sandbox. -/
theorem c8_sandbox_amended_witness :
    (handleRequest ⟨none⟩
        ⟨"/", none, some "application/json",
          ParsedBody.value (JVal.obj [("files", JVal.obj []), ("args", JVal.arr [])])⟩
        ["tmp"] (fun _ => none) (fun _ => ⟨0, [], []⟩)).2.created = 1 :=
  (c8_sandbox_amended ⟨none⟩
      ⟨"/", none, some "application/json",
        ParsedBody.value (JVal.obj [("files", JVal.obj []), ("args", JVal.arr [])])⟩
      ["tmp"] (fun _ => none) (fun _ => ⟨0, [], []⟩)).2.2.1
    (JVal.obj [("files", JVal.obj []), ("args", JVal.arr [])]) [] [] []
    rfl rfl rfl rfl rfl

/-- C8 counterexample: a request to the endpoint that is turned away at the
authentication gate is handled (it gets the 401 response) but creates no
sandbox directory at all, so it is not true that every request handled by the
endpoint creates exactly one sandbox. -/
theorem c8_sandbox_counterexample :
    (handleRequest ⟨some "secret"⟩
        ⟨"/", none, some "application/json",
          ParsedBody.value (JVal.obj [("files", JVal.obj []), ("args", JVal.arr [])])⟩
        ["tmp"] (fun _ => none) (fun _ => ⟨0, [], []⟩)).2.created = 0
    ∧ (handleRequest ⟨some "secret"⟩
        ⟨"/", none, some "application/json",
          ParsedBody.value (JVal.obj [("files", JVal.obj []), ("args", JVal.arr [])])⟩
        ["tmp"] (fun _ => none) (fun _ => ⟨0, [], []⟩)).1
      = Outcome.response ⟨401, [], []⟩ :=
  ⟨rfl, rfl⟩

/-- C5: whenever the job records a tool invocation, its argument vector is
the program name followed by exactly the validated `args` (all strings),
then the keys of `files` (not of the merged mapping) in order, then
`-o` `-`; the working directory is the sandbox's `files` subdirectory; and
the recorded result is the tool's, with both captured streams. -/
theorem c5_invocation (root : List String) (fetch : String → Option (List Nat))
    (tool : Invocation → ToolResult) (files extra : List (String × JVal))
    (args : List JVal) (inv : Invocation) (r : ToolResult)
    (h : (runJob root fetch tool files extra args).2.invocation = some (inv, r)) :
    (∃ sargs, asStrings args = some sargs
      ∧ inv.argv = "pandoc" :: (sargs ++ files.map Prod.fst ++ ["-o", "-"]))
    ∧ inv.cwd = root ++ ["files"]
    ∧ r = tool inv := by
  simp only [runJob] at h
  rcases hm : (materialize (root ++ ["files"]) fetch (dictMerge files extra)).outcome with
    _ | _ | _ <;> simp only [hm] at h
  · cases h
  · cases h
  · rcases ha : asStrings args with _ | sargs <;> simp only [ha] at h
    · cases h
    · injection h with h1
      injection h1 with h2 h3
      subst h2
      subst h3
      exact ⟨⟨sargs, rfl, rfl⟩, rfl, rfl⟩

/-- Closed instance of `c5_invocation` for a run that reaches the tool. -/
theorem c5_invocation_witness :
    (∃ sargs, asStrings [JVal.str "-f"] = some sargs
      ∧ (mkInvocation ["-f"] ["a.md"] ["tmp", "files"]).argv
          = "pandoc" :: (sargs ++ [("a.md", JVal.str "")].map Prod.fst ++ ["-o", "-"]))
    ∧ (mkInvocation ["-f"] ["a.md"] ["tmp", "files"]).cwd = ["tmp"] ++ ["files"]
    ∧ (⟨0, [1], []⟩ : ToolResult)
        = (fun _ => (⟨0, [1], []⟩ : ToolResult))
            (mkInvocation ["-f"] ["a.md"] ["tmp", "files"]) :=
  c5_invocation ["tmp"] (fun _ => none) (fun _ => ⟨0, [1], []⟩)
    [("a.md", JVal.str "")] [] [JVal.str "-f"]
    (mkInvocation ["-f"] ["a.md"] ["tmp", "files"]) ⟨0, [1], []⟩ rfl

/-- The content dispatch can only write or fault; the two 400 rejections of
the loop never come out of it. -/
theorem dispatchContent_ne (t : List String) (fetch : String → Option (List Nat))
    (c : JVal) :
    dispatchContent t fetch c ≠ EntryStep.rejectNull
    ∧ dispatchContent t fetch c ≠ EntryStep.rejectPath := by
  cases c <;> simp only [dispatchContent]
  case str s =>
    by_cases h1 : pyStartswith s "data:" = true
    · rw [if_pos h1]
      rcases fetch s with _ | bs <;> simp
    · rw [if_neg h1]
      by_cases h2 : pyStartswith s "http:" = true ∨ pyStartswith s "https:" = true
      · rw [if_pos h2]
        simp
      · rw [if_neg h2]
        rcases b64decode s.data with _ | bs <;> simp
  all_goals simp

/-- C10: for an entry that passed the path check, the content 400 rejection
fires exactly on a JSON null descriptor; any non-null descriptor goes
straight to the prefix dispatch, and a non-null non-string descriptor is
never rejected with 400 there: it faults on the missing `startswith`
attribute instead. -/
theorem c10_null_check (fd : List String) (fetch : String → Option (List Nat))
    (name : String) (v : JVal)
    (hsafe : fd.isPrefixOf (resolvedTarget fd name) = true) :
    (processEntry fd fetch name v = EntryStep.rejectNull ↔ v = JVal.null)
    ∧ (v ≠ JVal.null →
        processEntry fd fetch name v = dispatchContent (resolvedTarget fd name) fetch v)
    ∧ ((∀ s, v ≠ JVal.str s) → v ≠ JVal.null →
        processEntry fd fetch name v = EntryStep.fault) := by
  have hnull : ∀ w : JVal, isNullJ w = true ↔ w = JVal.null := by
    intro w
    cases w <;> simp [isNullJ]
  have hdisp : ∀ w : JVal, w ≠ JVal.null →
      processEntry fd fetch name w = dispatchContent (resolvedTarget fd name) fetch w := by
    intro w hw
    unfold processEntry
    rw [if_pos hsafe, if_neg (fun hc => hw ((hnull w).mp hc))]
  refine ⟨⟨?_, ?_⟩, hdisp v, ?_⟩
  · intro h
    by_cases hn : v = JVal.null
    · exact hn
    · rw [hdisp v hn] at h
      exact absurd h (dispatchContent_ne (resolvedTarget fd name) fetch v).1
  · intro h
    subst h
    unfold processEntry
    rw [if_pos hsafe]
    rfl
  · intro hs hn
    rw [hdisp v hn]
    cases v with
    | str s => exact absurd rfl (hs s)
    | null => exact absurd rfl hn
    | bool b => rfl
    | num n => rfl
    | arr xs => rfl
    | obj kvs => rfl

/-- Closed instance of `c10_null_check`: a numeric descriptor faults instead
of being rejected, a null one is rejected. -/
theorem c10_null_check_witness :
    processEntry ["tmp", "files"] (fun _ => none) "a.txt" (JVal.num 7) = EntryStep.fault
    ∧ processEntry ["tmp", "files"] (fun _ => none) "a.txt" JVal.null
        = EntryStep.rejectNull :=
  ⟨(c10_null_check ["tmp", "files"] (fun _ => none) "a.txt" (JVal.num 7) (by decide)).2.2
     (fun s h => JVal.noConfusion h) (fun h => JVal.noConfusion h),
   (c10_null_check ["tmp", "files"] (fun _ => none) "a.txt" JVal.null (by decide)).1.mpr rfl⟩

/-- C4 (amended): for an object payload, validation rejects with 400 exactly
when `files` is absent or not an object, or `extra_files` is present and not
an object, or `args` is absent or not an array; element types of `args` are
not checked; otherwise the job proceeds to materialization. -/
theorem c4_validation_amended (kvs : List (String × JVal)) :
    (validatePayload (JVal.obj kvs) = VOutcome.reject400 ↔
      ¬ (filesOk kvs = true ∧ extraOk kvs = true ∧ argsOk kvs = true))
    ∧ (filesOk kvs = true → extraOk kvs = true → argsOk kvs = true →
        ∃ files extra args,
          validatePayload (JVal.obj kvs) = VOutcome.proceed files extra args) := by
  unfold validatePayload filesOk extraOk argsOk checkArgs
  rcases h1 : jLookup "files" kvs with _ | v1 <;> simp only [h1]
  · simp
  · rcases v1 with _ | b | n | s | xs | files <;> simp only [isObjJ]
    case obj =>
      rcases h2 : jLookup "extra_files" kvs with _ | v2 <;> simp only [h2]
      case none =>
        rcases h3 : jLookup "args" kvs with _ | v3 <;> simp only [h3]
        · simp
        · rcases v3 with _ | b | n | s | xs | o <;> simp [isArrJ]
      case some =>
        rcases v2 with _ | b | n | s | xs | extra <;> simp only [isObjJ]
        case obj =>
          rcases h3 : jLookup "args" kvs with _ | v3 <;> simp only [h3]
          · simp
          · rcases v3 with _ | b | n | s | xs | o <;> simp [isArrJ]
        all_goals simp
    all_goals simp

/-- Closed instance of `c4_validation_amended`: a well-shaped payload
proceeds. -/
theorem c4_validation_amended_witness :
    ∃ files extra args,
      validatePayload (JVal.obj [("files", JVal.obj []), ("args", JVal.arr [JVal.str "-t"])])
        = VOutcome.proceed files extra args :=
  (c4_validation_amended [("files", JVal.obj []), ("args", JVal.arr [JVal.str "-t"])]).2
    rfl rfl rfl

/-- C4 counterexample: a payload whose `args` is an array containing a
non-string is not rejected by validation, although the claim says validation
rejects every `args` that is not a sequence of strings; the job proceeds to
materialization with the number still in the list. -/
theorem c4_validation_counterexample :
    validatePayload (JVal.obj [("files", JVal.obj []), ("args", JVal.arr [JVal.num 1])])
      = VOutcome.proceed [] [] [JVal.num 1]
    ∧ allStringsJ [JVal.num 1] = false :=
  ⟨rfl, rfl⟩

/-- `containsKey` is membership among the keys. -/
theorem containsKey_iff (key : String) (m : List (String × JVal)) :
    containsKey key m = true ↔ key ∈ m.map Prod.fst := by
  simp [containsKey, List.any_eq_true, List.mem_map]

/-- A hit in the left part of an association-list append is a hit in the
whole. -/
theorem jLookup_append_left (key : String) (l1 l2 : List (String × JVal)) (v : JVal)
    (h : jLookup key l1 = some v) : jLookup key (l1 ++ l2) = some v := by
  induction l1 with
  | nil => simp [jLookup] at h
  | cons p rest ih =>
    obtain ⟨k0, v0⟩ := p
    simp only [jLookup, List.cons_append] at h ⊢
    by_cases hk : k0 = key
    · rw [if_pos hk] at h ⊢
      exact h
    · rw [if_neg hk] at h ⊢
      exact ih h

/-- The keys of the merged mapping: the `files` keys followed by the
`extra_files` keys not already in `files`. -/
theorem dictMerge_keys (files extra : List (String × JVal)) :
    (dictMerge files extra).map Prod.fst
      = files.map Prod.fst
        ++ (extra.filter (fun p => ! containsKey p.1 files)).map Prod.fst := by
  unfold dictMerge
  rw [List.map_append]
  congr 1
  induction files with
  | nil => rfl
  | cons p rest ih =>
    simp only [List.map_cons]
    rw [ih]
    congr 1
    rcases h : jLookup p.1 extra with _ | v <;> simp [h]

/-- Looking up a key of `files` in the merged mapping yields the
`extra_files` value when the key is also there. -/
theorem jLookup_mergeLeft (key : String) (files extra : List (String × JVal)) (v : JVal)
    (hk : key ∈ files.map Prod.fst) (hv : jLookup key extra = some v) :
    jLookup key (files.map (fun p =>
      match jLookup p.1 extra with
      | some w => (p.1, w)
      | none => p)) = some v := by
  induction files with
  | nil => simp at hk
  | cons p rest ih =>
    by_cases he : p.1 = key
    · rcases h : jLookup p.1 extra with _ | w
      · exfalso
        rw [he] at h
        rw [h] at hv
        exact Option.noConfusion hv
      · have hw : w = v := by
          rw [he] at h
          rw [h] at hv
          injection hv
        subst hw
        simp only [List.map_cons, h, jLookup]
        rw [if_pos he]
    · have hk' : key ∈ rest.map Prod.fst := by
        rcases List.mem_map.mp hk with ⟨q, hq, hq1⟩
        rcases List.mem_cons.mp hq with hq2 | hq2
        · rw [hq2] at hq1
          exact absurd hq1 he
        · exact List.mem_map.mpr ⟨q, hq2, hq1⟩
      simp only [List.map_cons, jLookup]
      rcases h : jLookup p.1 extra with _ | w <;> simp only [h]
      · rw [if_neg he]
        exact ih hk'
      · rw [if_neg he]
        exact ih hk'

/-- C6: with unique keys on both sides, the merged mapping the loop iterates
has no duplicate key (each file is processed exactly once), its keys are
exactly the union of the two key sets, a key present in both mappings carries
the `extra_files` value, the job materializes exactly the merged mapping, and
the positional inputs handed to the tool are the `files` keys alone. -/
theorem c6_merge_semantics (files extra : List (String × JVal))
    (hf : (files.map Prod.fst).Nodup) (he : (extra.map Prod.fst).Nodup) :
    ((dictMerge files extra).map Prod.fst).Nodup
    ∧ (∀ k, k ∈ (dictMerge files extra).map Prod.fst ↔
        (k ∈ files.map Prod.fst ∨ k ∈ extra.map Prod.fst))
    ∧ (∀ k v, jLookup k extra = some v → k ∈ files.map Prod.fst →
        jLookup k (dictMerge files extra) = some v)
    ∧ (∀ root fetch tool args,
        (runJob root fetch tool files extra args).2.writes
          = (materialize (root ++ ["files"]) fetch (dictMerge files extra)).writes)
    ∧ (∀ sargs fd, (mkInvocation sargs (files.map Prod.fst) fd).argv
        = "pandoc" :: (sargs ++ files.map Prod.fst ++ ["-o", "-"])) := by
  refine ⟨?_, ?_, ?_, ?_, fun sargs fd => rfl⟩
  · rw [dictMerge_keys, List.nodup_append]
    refine ⟨hf, he.sublist (List.Sublist.map Prod.fst (List.filter_sublist extra)), ?_⟩
    intro k hk1 hk2
    rcases List.mem_map.mp hk2 with ⟨q, hq, hq1⟩
    rcases List.mem_filter.mp hq with ⟨_, hq3⟩
    rw [hq1] at hq3
    rw [(containsKey_iff k files).mpr hk1] at hq3
    exact Bool.noConfusion hq3
  · intro k
    rw [dictMerge_keys, List.mem_append]
    constructor
    · rintro (h | h)
      · exact Or.inl h
      · rcases List.mem_map.mp h with ⟨q, hq, hq1⟩
        exact Or.inr (List.mem_map.mpr ⟨q, (List.mem_filter.mp hq).1, hq1⟩)
    · rintro (h | h)
      · exact Or.inl h
      · by_cases hc : k ∈ files.map Prod.fst
        · exact Or.inl hc
        · right
          rcases List.mem_map.mp h with ⟨q, hq, hq1⟩
          refine List.mem_map.mpr ⟨q, List.mem_filter.mpr ⟨hq, ?_⟩, hq1⟩
          have hcc : containsKey q.1 files = false := by
            cases hb : containsKey q.1 files
            · rfl
            · rw [hq1] at hb
              exact absurd ((containsKey_iff k files).mp hb) hc
          rw [hcc]
          rfl
  · intro k v hv hk
    unfold dictMerge
    exact jLookup_append_left k _ _ v (jLookup_mergeLeft k files extra v hk hv)
  · intro root fetch tool args
    exact (runJob_trace root fetch tool files extra args).2.2

/-- Closed instance of `c6_merge_semantics`: on a shared key the
`extra_files` value wins. -/
theorem c6_merge_semantics_witness :
    jLookup "b" (dictMerge [("a", JVal.str "1"), ("b", JVal.str "2")]
        [("b", JVal.str "3"), ("c", JVal.str "4")]) = some (JVal.str "3") :=
  (c6_merge_semantics [("a", JVal.str "1"), ("b", JVal.str "2")]
      [("b", JVal.str "3"), ("c", JVal.str "4")] (by decide) (by decide)).2.2.1
    "b" (JVal.str "3") rfl (by decide)

/-- Decoding a base64 digit undoes encoding a 6-bit value. -/
theorem decChar_encChar : ∀ n, n < 64 → decChar (encChar n) = some n := by decide

/-- The digit-table lookup stays inside the table (its default is the first
table entry). -/
theorem encCharAux_mem : ∀ (n : Nat) (cs : List Char),
    encCharAux n cs ∈ cs ∨ encCharAux n cs = 'A' := by
  intro n
  induction n with
  | zero =>
    intro cs
    cases cs with
    | nil => exact Or.inr rfl
    | cons c rest => exact Or.inl (List.mem_cons_self c rest)
  | succ m ih =>
    intro cs
    cases cs with
    | nil => exact Or.inr rfl
    | cons c rest =>
      rcases ih rest with h | h
      · exact Or.inl (List.mem_cons_of_mem c h)
      · exact Or.inr h

/-- Every encoded digit is in the base64 alphabet. -/
theorem encChar_mem (n : Nat) : encChar n ∈ b64chars := by
  rcases encCharAux_mem n b64chars with h | h
  · exact h
  · unfold encChar
    rw [h]
    decide

/-- An encoded digit never equals a character outside the alphabet. -/
theorem encChar_ne (n : Nat) (c : Char) (hc : ¬ c ∈ b64chars) : encChar n ≠ c :=
  fun h => hc (h ▸ encChar_mem n)

/-- The stdlib decoder is a left inverse of standard base64 encoding on byte
strings. -/
theorem b64_roundtrip : ∀ b : List Nat, (∀ x ∈ b, x < 256) →
    b64decode (b64encode b) = some b
  | [], _ => rfl
  | [a], h => by
    have ha : a < 256 := h a (by simp)
    have h1 : a / 4 < 64 := by omega
    have h2 : a % 4 * 16 < 64 := by omega
    show b64decode (b64encode [a]) = some [a]
    simp only [b64encode]
    simp [b64decode, decChar_encChar _ h1, decChar_encChar _ h2]
    omega
  | [a, b], h => by
    have ha : a < 256 := h a (by simp)
    have hb : b < 256 := h b (by simp)
    have h1 : a / 4 < 64 := by omega
    have h2 : a % 4 * 16 + b / 16 < 64 := by omega
    have h3 : b % 16 * 4 < 64 := by omega
    have hne : encChar (b % 16 * 4) ≠ '=' := encChar_ne _ '=' (by decide)
    show b64decode (b64encode [a, b]) = some [a, b]
    simp only [b64encode]
    simp [b64decode, decChar_encChar _ h1, decChar_encChar _ h2, decChar_encChar _ h3, hne]
    omega
  | a :: b :: c :: rest, h => by
    have ha : a < 256 := h a (by simp)
    have hb : b < 256 := h b (by simp)
    have hc : c < 256 := h c (by simp)
    have ih := b64_roundtrip rest (fun x hx => h x (by simp [hx]))
    have h1 : a / 4 < 64 := by omega
    have h2 : a % 4 * 16 + b / 16 < 64 := by omega
    have h3 : b % 16 * 4 + c / 64 < 64 := by omega
    have h4 : c % 64 < 64 := by omega
    have hne3 : encChar (b % 16 * 4 + c / 64) ≠ '=' := encChar_ne _ '=' (by decide)
    have hne4 : encChar (c % 64) ≠ '=' := encChar_ne _ '=' (by decide)
    show b64decode (b64encode (a :: b :: c :: rest)) = some (a :: b :: c :: rest)
    simp only [b64encode]
    simp [b64decode, decChar_encChar _ h1, decChar_encChar _ h2, decChar_encChar _ h3,
      decChar_encChar _ h4, hne3, hne4, ih]
    omega

/-- Every character of an encoding is an alphabet digit or padding. -/
theorem b64encode_mem : ∀ (b : List Nat) (c : Char), c ∈ b64encode b →
    c ∈ b64chars ∨ c = '='
  | [], c, h => absurd h (List.not_mem_nil c)
  | [a], c, h => by
    simp only [b64encode, List.mem_cons, List.not_mem_nil, or_false] at h
    rcases h with h | h | h | h
    · exact Or.inl (by rw [h]; exact encChar_mem _)
    · exact Or.inl (by rw [h]; exact encChar_mem _)
    · exact Or.inr h
    · exact Or.inr h
  | [a, b], c, h => by
    simp only [b64encode, List.mem_cons, List.not_mem_nil, or_false] at h
    rcases h with h | h | h | h
    · exact Or.inl (by rw [h]; exact encChar_mem _)
    · exact Or.inl (by rw [h]; exact encChar_mem _)
    · exact Or.inl (by rw [h]; exact encChar_mem _)
    · exact Or.inr h
  | a :: b :: c0 :: rest, c, h => by
    simp only [b64encode, List.mem_cons] at h
    rcases h with h | h | h | h | h
    · exact Or.inl (by rw [h]; exact encChar_mem _)
    · exact Or.inl (by rw [h]; exact encChar_mem _)
    · exact Or.inl (by rw [h]; exact encChar_mem _)
    · exact Or.inl (by rw [h]; exact encChar_mem _)
    · exact b64encode_mem rest c h

/-- Characters of a boolean-checked prefix are characters of the whole. -/
theorem isPrefixOf_mem {p l : List Char} (h : p.isPrefixOf l = true) :
    ∀ c ∈ p, c ∈ l := by
  induction p generalizing l with
  | nil =>
    intro c hc
    exact absurd hc (List.not_mem_nil c)
  | cons a p' ih =>
    cases l with
    | nil => simp [List.isPrefixOf] at h
    | cons b l' =>
      simp only [List.isPrefixOf, Bool.and_eq_true, beq_iff_eq] at h
      intro c hc
      rcases List.mem_cons.mp hc with h1 | h1
      · rw [h1, h.1]
        exact List.mem_cons_self b l'
      · exact List.mem_cons_of_mem b (ih h.2 c h1)

/-- An encoded string never starts with a prefix containing a colon, because
the colon is neither an alphabet digit nor padding; in particular the
`data:`, `http:` and `https:` dispatch prefixes never match. -/
theorem b64encode_no_colon_prefix (b : List Nat) (p : String) (hp : ':' ∈ p.data) :
    pyStartswith (String.mk (b64encode b)) p = false := by
  unfold pyStartswith
  cases hpre : p.data.isPrefixOf (String.mk (b64encode b)).data
  · rfl
  · exfalso
    have hc : ':' ∈ b64encode b := isPrefixOf_mem hpre ':' hp
    rcases b64encode_mem b ':' hc with h | h
    · revert h
      decide
    · exact absurd h (by decide)

/-- C9: a descriptor equal to the base64 encoding of a byte string `b` never
matches the `data:`/`http:`/`https:` prefixes, so it takes the base64 branch,
and the bytes written to disk are exactly `b`. -/
theorem c9_base64_roundtrip (fd : List String) (fetch : String → Option (List Nat))
    (name : String) (b : List Nat)
    (hb : ∀ x ∈ b, x < 256)
    (hsafe : fd.isPrefixOf (resolvedTarget fd name) = true) :
    processEntry fd fetch name (JVal.str (String.mk (b64encode b)))
      = EntryStep.written (resolvedTarget fd name) b := by
  unfold processEntry
  rw [if_pos hsafe]
  have hnn : ¬ (isNullJ (JVal.str (String.mk (b64encode b))) = true) := by
    simp [isNullJ]
  rw [if_neg hnn]
  simp only [dispatchContent]
  have hd1 := b64encode_no_colon_prefix b "data:" (by decide)
  have hd2 := b64encode_no_colon_prefix b "http:" (by decide)
  have hd3 := b64encode_no_colon_prefix b "https:" (by decide)
  have hd : b64decode (String.mk (b64encode b)).data = some b := b64_roundtrip b hb
  simp [hd1, hd2, hd3, hd]

/-- Closed instance of `c9_base64_roundtrip`: the encoding of the bytes of
`# T` decodes back to those bytes on disk. -/
theorem c9_base64_roundtrip_witness :
    processEntry ["tmp", "files"] (fun _ => none) "a.md"
      (JVal.str (String.mk (b64encode [35, 32, 84])))
      = EntryStep.written (resolvedTarget ["tmp", "files"] "a.md") [35, 32, 84] :=
  c9_base64_roundtrip ["tmp", "files"] (fun _ => none) "a.md" [35, 32, 84]
    (by decide) (by decide)
